import Mathlib

/-! The API gateway of `gateway-service/main.go`.

A shallow embedding of the gateway: the configuration read by `main`, the
route table registered on the gin engine, the two proxy handlers
(`proxyRequest` and the `NoRoute` closure), and as much of the libraries
underneath as the handlers' observable behaviour depends on
(`os.Getenv`, `net/url.Parse`, the director of
`httputil.NewSingleHostReverseProxy`, gin's route lookup with its
trailing-slash redirect, gin's recovery middleware and the CORS middleware).

A Go `string` is a byte sequence; here it is a `String` whose characters
stand for the bytes (all literals of the program are ASCII).
-/

namespace Gateway

/-! ## Strings -/

/-- Go's `strings.Cut` for a one-byte separator: the part before the first
separator, the part after it, and whether the separator was found. -/
def cut (sep : Char) : List Char → List Char × List Char × Bool
  | [] => ([], [], false)
  | c :: cs =>
    if c = sep then ([], cs, true)
    else ((c :: (cut sep cs).1), (cut sep cs).2.1, (cut sep cs).2.2)

/-- Go's `strings.Split(s, "/")`: the pieces between slashes, empty pieces
included. -/
def splitSlash : List Char → List (List Char)
  | [] => [[]]
  | c :: cs =>
    if c = '/' then [] :: splitSlash cs
    else match splitSlash cs with
      | [] => [[c]]
      | s :: ss => (c :: s) :: ss

/-- Go's `strings.HasPrefix`. -/
def hasPrefix : List Char → List Char → Bool
  | _, [] => true
  | [], _ :: _ => false
  | c :: cs, p :: ps => c == p && hasPrefix cs ps

/-- Go's `strings.HasSuffix`. -/
def hasSuffix (s suf : List Char) : Bool := hasPrefix s.reverse suf.reverse

/-- The part of a string before the last occurrence of a byte and the part
from that byte on (`strings.LastIndex` and the two slices taken at it);
`none` when the byte does not occur. -/
def cutLast (sep : Char) : List Char → Option (List Char × List Char)
  | [] => none
  | c :: cs =>
    match cutLast sep cs with
    | some (a, b) => some (c :: a, b)
    | none => if c = sep then some ([], c :: cs) else none

/-! ## Configuration (`main`, lines 15-18, 33-36, 43-46) -/

/-- The process environment: a variable is unset (`none`) or set to a value. -/
abbrev Env := String → Option String

/-- Go's `os.Getenv`: the value of the variable, the empty string when it is
not present. -/
def getenv (env : Env) (key : String) : String := (env key).getD ""

/-- The three values `main` reads from the environment. -/
structure Config where
  port : String
  authServiceURL : String
  appServiceURL : String
  deriving DecidableEq, Repr

/-- The body of `main` up to the route registrations: each variable is read
once and replaced by its default when the value read is empty. -/
def loadConfig (env : Env) : Config :=
  let port := getenv env "PORT"
  let port := if port == "" then "8080" else port
  let authServiceURL := getenv env "AUTH_SERVICE_URL"
  let authServiceURL := if authServiceURL == "" then "http://localhost:3001" else authServiceURL
  let appServiceURL := getenv env "APP_SERVICE_URL"
  let appServiceURL := if appServiceURL == "" then "http://localhost:3002" else appServiceURL
  { port := port, authServiceURL := authServiceURL, appServiceURL := appServiceURL }

/-- The address handed to `router.Run`: `":" + port`. -/
def listenAddr (cfg : Config) : String := ":" ++ cfg.port

/-! ## `net/url.Parse` -/

/-- The fields of Go's `url.URL` that the reverse proxy reads, and `Opaque`.
`RawPath`, the optional encoding hint of the path, is not kept. -/
structure URL where
  scheme : String
  opaq : String
  host : String
  path : String
  rawQuery : String
  deriving DecidableEq, Repr

/-- Go's `stringContainsCTLByte`: an ASCII control byte occurs. -/
def stringContainsCTLByte (s : List Char) : Bool :=
  s.any fun c => c.toNat < 0x20 || c.toNat == 0x7f

/-- Go's `ishex`: the byte is a hexadecimal digit. -/
def ishex (c : Char) : Bool :=
  c.isDigit || ('a'.toNat ≤ c.toNat && c.toNat ≤ 'f'.toNat)
    || ('A'.toNat ≤ c.toNat && c.toNat ≤ 'F'.toNat)

/-- Go's `unhex`: the value of a hexadecimal digit. -/
def unhex (c : Char) : Nat :=
  if c.isDigit then c.toNat - '0'.toNat
  else if 'a'.toNat ≤ c.toNat && c.toNat ≤ 'f'.toNat then c.toNat - 'a'.toNat + 10
  else if 'A'.toNat ≤ c.toNat && c.toNat ≤ 'F'.toNat then c.toNat - 'A'.toNat + 10
  else 0

/-- The modes of `unescape` that `Parse` uses. -/
inductive Encoding
  | encodePath | encodeHost | encodeZone | encodeUserPassword | encodeFragment
  deriving DecidableEq, Repr

/-- Go's `shouldEscape(c, encodeHost)`: the byte may not stand unescaped in a host. -/
def shouldEscapeHost (c : Char) : Bool :=
  !(c.isAlphanum
    || "!$&()*+,;=:[]<>".data.contains c || c == Char.ofNat 39 || c == Char.ofNat 34
    || "-_.~".data.contains c)

/-- Go's `unescape(s, mode)`: checks the percent escapes (and, in a host or zone,
the bytes) and decodes them; `none` is Go's `EscapeError` or
`InvalidHostError`. -/
def unescape (mode : Encoding) : List Char → Option (List Char)
  | [] => some []
  | '%' :: h :: l :: rest =>
    if !ishex h || !ishex l then none
    else if mode == .encodeHost && unhex h < 8 && !(h == '2' && l == '5') then none
    else if mode == .encodeZone && !(h == '2' && l == '5')
        && unhex h * 16 + unhex l != 32
        && shouldEscapeHost (Char.ofNat (unhex h * 16 + unhex l)) then none
    else (unescape mode rest).map fun r => Char.ofNat (unhex h * 16 + unhex l) :: r
  | c :: rest =>
    if c == '%' then none
    else if (mode == .encodeHost || mode == .encodeZone) && c.toNat < 0x80
        && shouldEscapeHost c then none
    else (unescape mode rest).map fun r => c :: r

/-- Go's `getScheme`, as a loop over the bytes: `first` says the loop is at index 0,
`acc` holds the bytes read so far. The result is the scheme and the rest, or
`none` for "missing protocol scheme". -/
def getSchemeAux (raw : List Char) :
    Bool → List Char → List Char → Option (List Char × List Char)
  | _, _, [] => some ([], raw)
  | first, acc, c :: cs =>
    if c.isAlpha then getSchemeAux raw false (acc ++ [c]) cs
    else if c.isDigit || c == '+' || c == '-' || c == '.' then
      if first then some ([], raw) else getSchemeAux raw false (acc ++ [c]) cs
    else if c == ':' then
      if first then none else some (acc, cs)
    else some ([], raw)

/-- Go's `getScheme`: the scheme in front of the first colon, if there is one. -/
def getScheme (raw : List Char) : Option (List Char × List Char) :=
  getSchemeAux raw true [] raw

/-- Go's `validOptionalPort`: empty, or a colon followed by digits only. -/
def validOptionalPort : List Char → Bool
  | [] => true
  | c :: cs => c == ':' && cs.all Char.isDigit

/-- Go's `validUserinfo`: only bytes allowed in user information occur. -/
def validUserinfo (s : List Char) : Bool :=
  s.all fun c => c.isAlphanum || "-._:~!$&()*+,;=%@".data.contains c || c == Char.ofNat 39

/-- The index of the first `%25` in a string, as the parts before it and from
it on (`strings.Index(s, "%25")`). -/
def cutZone : List Char → Option (List Char × List Char)
  | [] => none
  | c :: cs =>
    if hasPrefix (c :: cs) "%25".data then some ([], c :: cs)
    else (cutZone cs).map fun r => (c :: r.1, r.2)

/-- Go's `parseHost`: a bracketed IP literal with an optional zone, or a name with
an optional port; `none` when Go returns an error. -/
def parseHost (host : List Char) : Option (List Char) :=
  if hasPrefix host ['['] then
    -- the text up to the last "]" and the text from it on
    match cutLast ']' host with
    | none => none
    | some (lit, close) =>
      if !validOptionalPort (close.drop 1) then none
      else match cutZone lit with
        | some (h1, zone) =>
          match unescape .encodeHost h1, unescape .encodeZone zone,
              unescape .encodeHost close with
          | some a, some b, some c => some (a ++ b ++ c)
          | _, _, _ => none
        | none => unescape .encodeHost host
  else
    match cutLast ':' host with
    | some (_, colonPort) =>
      if !validOptionalPort colonPort then none else unescape .encodeHost host
    | none => unescape .encodeHost host

/-- Go's `parseAuthority`, for the host it yields: the user information in front
of the last `@` is checked the way Go checks it and then dropped (the
reverse proxy does not read `URL.User`). -/
def parseAuthority (authority : List Char) : Option (List Char) :=
  match cutLast '@' authority with
  | none => parseHost authority
  | some (userinfo, atHost) =>
    match parseHost (atHost.drop 1) with
    | none => none
    | some host =>
      if !validUserinfo userinfo then none
      else if !userinfo.contains ':' then
        (unescape .encodeUserPassword userinfo).map fun _ => host
      else
        match unescape .encodeUserPassword (cut ':' userinfo).1,
            unescape .encodeUserPassword (cut ':' userinfo).2.1 with
        | some _, some _ => some host
        | _, _ => none

/-- The unexported `parse(rawURL, false)` of `net/url`: scheme, query,
opaque part, authority and path of a URL without its fragment. -/
def parseNoFragment (rawURL : List Char) : Option URL :=
  if stringContainsCTLByte rawURL then none
  else if rawURL == ['*'] then
    some { scheme := "", opaq := "", host := "", path := "*", rawQuery := "" }
  else
    match getScheme rawURL with
    | none => none
    | some (scheme, rest0) =>
      let scheme := scheme.map Char.toLower
      -- a lone trailing "?" sets ForceQuery, otherwise the query is cut off
      let rq : List Char × List Char :=
        if hasSuffix rest0 ['?'] && rest0.count '?' == 1 then (rest0.dropLast, [])
        else ((cut '?' rest0).1, (cut '?' rest0).2.1)
      let rest := rq.1
      let rawQuery := rq.2
      if !hasPrefix rest ['/'] && !scheme.isEmpty then
        some { scheme := String.mk scheme, opaq := String.mk rest, host := "",
               path := "", rawQuery := String.mk rawQuery }
      else if !hasPrefix rest ['/'] && (cut '/' rest).1.contains ':' then
        none
      else
        let ah : Option (List Char × List Char) :=
          if (!scheme.isEmpty || !hasPrefix rest "///".data) && hasPrefix rest "//".data then
            (parseAuthority (cut '/' (rest.drop 2)).1).map fun h =>
              (h, if (cut '/' (rest.drop 2)).2.2 then '/' :: (cut '/' (rest.drop 2)).2.1 else [])
          else some ([], rest)
        match ah with
        | none => none
        | some (host, p) =>
          (unescape .encodePath p).map fun path =>
            { scheme := String.mk scheme, opaq := "", host := String.mk host,
              path := String.mk path, rawQuery := String.mk rawQuery }

/-- Go's `url.Parse`: the fragment is cut off at the first `#` and must
itself unescape; `none` is a non-nil error. -/
def urlParse (rawURL : String) : Option URL :=
  match parseNoFragment (cut '#' rawURL.data).1 with
  | none => none
  | some u =>
    if (cut '#' rawURL.data).2.1.isEmpty then some u
    else (unescape .encodeFragment (cut '#' rawURL.data).2.1).map fun _ => u

/-! ## Requests, the response writer and the handlers of `main.go` -/

/-- The parts of an inbound `http.Request`: `path` is `URL.Path`, `host` is
`Request.Host`, header keys are in canonical form. -/
structure Request where
  method : String
  path : String
  rawQuery : String
  host : String
  header : List (String × String)
  body : String
  deriving DecidableEq, Repr

/-- Go's `http.Header.Get`: the first value of the key, or the empty string. -/
def headerGet (h : List (String × String)) (key : String) : String :=
  match h.find? fun kv => kv.1 == key with
  | some kv => kv.2
  | none => ""

/-- What the gateway itself has put on gin's response writer: the headers set,
the status code once one is written, and the JSON object written as body. -/
structure Writer where
  header : List (String × String)
  status : Option Nat
  body : Option (List (String × String))
  deriving DecidableEq, Repr

/-- The writer of a fresh request. -/
def Writer.fresh : Writer := { header := [], status := none, body := none }

/-- How a handler ends: it returns with the writer in some state, or its last
act is `proxy.ServeHTTP(c.Writer, c.Request)` on the proxy built by
`httputil.NewSingleHostReverseProxy(target)`, where `target` may be nil. -/
inductive Step
  | returned (w : Writer)
  | serveHTTP (target : Option URL) (w : Writer) (r : Request)
  deriving DecidableEq, Repr

/-- The method `c.JSON(code, obj)` of gin: content type, status code and body. -/
def cJSON (w : Writer) (code : Nat) (obj : List (String × String)) : Writer :=
  { header := w.header ++ [("Content-Type", "application/json; charset=utf-8")],
    status := some code, body := some obj }

/-- The handler of `GET /health` (lines 28-30). -/
def healthHandler (w : Writer) (_r : Request) : Step :=
  .returned (cJSON w 200 [("status", "Gateway is running")])

/-- The function `proxyRequest` (lines 66-79): the handler it returns for
`serviceURL`, run on the writer and request of a gin context. -/
def proxyRequest (serviceURL : String) (w : Writer) (r : Request) : Step :=
  match urlParse serviceURL with
  | none => .returned (cJSON w 500 [("error", "Invalid service URL")])
  | some target => .serveHTTP (some target) w r

/-- The closure given to `router.NoRoute` (lines 54-58): the error of
`url.Parse` is discarded, so on an error the proxy is built from a nil target. -/
def noRouteHandler (appServiceURL : String) (w : Writer) (r : Request) : Step :=
  .serveHTTP (urlParse appServiceURL) w r

/-! ## The route table (lines 28, 38-40, 48-51) -/

/-- The two backends a proxy handler can be bound to. -/
inductive Backend
  | auth | app
  deriving DecidableEq, Repr

/-- The handler registered for a route: the health closure, or
`proxyRequest` applied to one of the two service URLs. -/
inductive Handler
  | health
  | proxy (b : Backend)
  deriving DecidableEq, Repr

/-- One registration `router.GET(pattern, h)` or `router.POST(pattern, h)`. -/
structure Route where
  method : String
  pattern : String
  handler : Handler
  deriving DecidableEq, Repr

/-- The eight registrations of `main`, in source order. -/
def routes : List Route :=
  [ ⟨"GET", "/health", .health⟩,
    ⟨"POST", "/api/auth/register", .proxy .auth⟩,
    ⟨"POST", "/api/auth/login", .proxy .auth⟩,
    ⟨"POST", "/api/auth/refresh", .proxy .auth⟩,
    ⟨"POST", "/api/images/upload", .proxy .app⟩,
    ⟨"GET", "/api/images", .proxy .app⟩,
    ⟨"GET", "/api/images/:id", .proxy .app⟩,
    ⟨"GET", "/api/images/:id/status", .proxy .app⟩ ]

/-- The service URL variable a backend stands for. -/
def Config.serviceURL (cfg : Config) : Backend → String
  | .auth => cfg.authServiceURL
  | .app => cfg.appServiceURL

/-- Running a registered handler. -/
def Handler.run (cfg : Config) : Handler → Writer → Request → Step
  | .health => healthHandler
  | .proxy b => proxyRequest (cfg.serviceURL b)

/-! ## Route lookup of the gin engine

The engine keeps one tree of patterns per method (`GET` and `POST` here) and
looks the request's `URL.Path` up in the tree of the request's method
(`Engine.handleHTTPRequest`, `node.getValue`). `gin.Default()` leaves
`RedirectTrailingSlash` on and `RedirectFixedPath`, `HandleMethodNotAllowed`,
`UseRawPath` and `RemoveExtraSlash` off. The lookup below is `getValue` as it
behaves on the trees of this table, in which no two patterns of one method
overlap and no pattern ends in a slash. -/

/-- A segment of a pattern: literal text or a named parameter `:name`. -/
inductive Seg
  | lit (s : List Char)
  | param (name : List Char)
  deriving DecidableEq, Repr

/-- The segments of a pattern. -/
def parsePattern (p : String) : List Seg :=
  (splitSlash p.data).map fun s =>
    match s with
    | ':' :: name => Seg.param name
    | _ => Seg.lit s

/-- Matching the segments of a path against a pattern. A literal matches
itself. A parameter takes the bytes up to the next slash; in the tree walk a
parameter at the end of the pattern is only reached with a non-empty rest, so
there it takes a non-empty segment, while in front of further segments it
takes any. With `loose` a final parameter may be empty too: that is the walk
which ends one slash short and yields the trailing-slash recommendation. -/
def matchSegs (loose : Bool) : List Seg → List (List Char) → Bool
  | [], [] => true
  | .lit s :: ps, x :: xs => s == x && matchSegs loose ps xs
  | .param _ :: ps, x :: xs => (loose || !ps.isEmpty || !x.isEmpty) && matchSegs loose ps xs
  | _, _ => false

/-- The route whose handlers `getValue` returns for the request, if any. -/
def findRoute (r : Request) : Option Route :=
  routes.find? fun rt =>
    rt.method == r.method && matchSegs false (parsePattern rt.pattern) (splitSlash r.path.data)

/-- The trailing-slash recommendation (`value.tsr`) together with the guard of
`handleHTTPRequest`: the method is not `CONNECT`, the path is not `/`, and the
path is a slash longer than one the tree of the method leads to. -/
def trailingSlash (r : Request) : Bool :=
  r.method != "CONNECT" && r.path != "/" && hasSuffix r.path.data ['/'] &&
    routes.any fun rt =>
      rt.method == r.method &&
        matchSegs true (parsePattern rt.pattern) (splitSlash r.path.data.dropLast)

/-! ## The reverse proxy (`httputil.NewSingleHostReverseProxy`) -/

/-- The URL of the outgoing request after the director has rewritten it. -/
structure Outbound where
  scheme : String
  host : String
  path : String
  rawQuery : String
  deriving DecidableEq, Repr

/-- The function `singleJoiningSlash` of `net/http/httputil`. -/
def singleJoiningSlash (a b : List Char) : List Char :=
  if hasSuffix a ['/'] && hasPrefix b ['/'] then a ++ b.drop 1
  else if !hasSuffix a ['/'] && !hasPrefix b ['/'] then a ++ '/' :: b
  else a ++ b

/-- The director `rewriteRequestURL(req, target)`: scheme and host of the
target, the target's path joined in front of the request's, the two queries
joined. (`joinURLPath` for URLs without `RawPath`.) -/
def rewriteRequestURL (target : URL) (r : Request) : Outbound :=
  { scheme := target.scheme
    host := target.host
    path := String.mk (singleJoiningSlash target.path.data r.path.data)
    rawQuery :=
      if target.rawQuery == "" || r.rawQuery == "" then target.rawQuery ++ r.rawQuery
      else target.rawQuery ++ "&" ++ r.rawQuery }

/-! ## The middleware chain and the engine -/

/-- The CORS configuration built in `main` (lines 21-24) on top of
`cors.DefaultConfig()`, whose `MaxAge` is twelve hours. -/
structure CorsConfig where
  allowOrigins : List String
  allowMethods : List String
  allowHeaders : List String
  maxAge : Nat
  deriving DecidableEq, Repr

/-- The value `config` of `main` when it is passed to `cors.New`. -/
def corsConfig : CorsConfig :=
  { allowOrigins := ["*"]
    allowMethods := ["GET", "POST", "PUT", "DELETE", "OPTIONS"]
    allowHeaders := ["Content-Type", "Authorization"]
    maxAge := 43200 }

/-- Go's `strings.Join(xs, ",")`. -/
def joinComma : List String → String
  | [] => ""
  | [x] => x
  | x :: y :: rest => x ++ "," ++ joinComma (y :: rest)

/-- The headers the CORS middleware adds to the response of a simple request. -/
def normalHeaders (c : CorsConfig) : List (String × String) :=
  if c.allowOrigins.contains "*" then [("Access-Control-Allow-Origin", "*")]
  else [("Vary", "Origin")]

/-- The headers the CORS middleware adds to the response of a preflight. -/
def preflightHeaders (c : CorsConfig) : List (String × String) :=
  [("Access-Control-Allow-Methods", joinComma c.allowMethods),
   ("Access-Control-Allow-Headers", joinComma c.allowHeaders),
   ("Access-Control-Max-Age", toString c.maxAge)]
   ++ normalHeaders c

/-- The middleware of `gin-contrib/cors` (`applyCors`): a request without an
`Origin` header, or whose origin is the request's own host, passes untouched;
an origin that is not allowed is answered 403; a preflight (`OPTIONS`) gets the
preflight headers and is answered 204 without reaching the handler; any other
request gets the normal headers and goes on. The flag says the chain was
aborted. -/
def applyCors (c : CorsConfig) (w : Writer) (r : Request) : Writer × Bool :=
  let origin := headerGet r.header "Origin"
  if origin == "" then (w, false)
  else if origin == "http://" ++ r.host || origin == "https://" ++ r.host then (w, false)
  else if !(c.allowOrigins.contains "*" || c.allowOrigins.contains origin) then
    ({ w with status := some 403 }, true)
  else if r.method == "OPTIONS" then
    ({ w with header := w.header ++ preflightHeaders c, status := some 204 }, true)
  else ({ w with header := w.header ++ normalHeaders c }, false)

/-- The request is a cross-origin request in the eyes of the CORS middleware:
it has an `Origin` header that does not name the request's own host. -/
def crossOrigin (r : Request) : Bool :=
  headerGet r.header "Origin" != "" &&
    !(headerGet r.header "Origin" == "http://" ++ r.host
      || headerGet r.header "Origin" == "https://" ++ r.host)

/-- What the client gets: a response the gateway wrote itself, the redirect
that `http.Redirect` writes (a `Location` and no header of the chain), or the
response of the reverse proxy to the outgoing request, relayed on top of the
headers the chain has set. -/
inductive Reply
  | written (w : Writer)
  | redirect (code : Nat)
  | relayed (w : Writer) (out : Outbound)
  deriving DecidableEq, Repr

/-- The end of a handler under gin's recovery middleware: `ServeHTTP` on a
proxy with a nil target dereferences nil, the panic is recovered and answered
with `AbortWithStatus(500)`. -/
def finish : Step → Reply
  | .returned w => .written w
  | .serveHTTP none w _ => .written { w with status := some 500 }
  | .serveHTTP (some target) w r => .relayed w (rewriteRequestURL target r)

/-- The handler chain of a route or of `NoRoute`: logger and recovery from
`gin.Default()`, the CORS middleware from `router.Use` (line 25), then the
handler. -/
def chain (h : Writer → Request → Step) (r : Request) : Reply :=
  if (applyCors corsConfig Writer.fresh r).2 then .written (applyCors corsConfig Writer.fresh r).1
  else finish (h (applyCors corsConfig Writer.fresh r).1 r)

/-- Where the engine's `handleHTTPRequest` sends a request: to the chain of
the matching route; else to the redirect of a trailing slash (301 for `GET`,
307 otherwise); else to the `NoRoute` chain. -/
inductive Dispatch
  | route (h : Handler)
  | redirect (code : Nat)
  | noRoute
  deriving DecidableEq, Repr

/-- The decision of `handleHTTPRequest` for the engine `main` builds. -/
def dispatch (r : Request) : Dispatch :=
  match findRoute r with
  | some rt => .route rt.handler
  | none =>
    if trailingSlash r then .redirect (if r.method == "GET" then 301 else 307)
    else .noRoute

/-- The gateway as a function from the configuration and a request to the
reply: the redirect is written without running any middleware, a route and
`NoRoute` run their handler at the end of the chain. -/
def serve (cfg : Config) (r : Request) : Reply :=
  match dispatch r with
  | .route h => chain (h.run cfg) r
  | .redirect code => .redirect code
  | .noRoute => chain (noRouteHandler cfg.appServiceURL) r

/-- The response carries `Access-Control-Allow-Origin: *` among the headers
the gateway set. -/
def Reply.allowsAnyOrigin : Reply → Bool
  | .written w => w.header.contains ("Access-Control-Allow-Origin", "*")
  | .redirect _ => false
  | .relayed w _ => w.header.contains ("Access-Control-Allow-Origin", "*")

/-! ## Classes of requests -/

/-- The requests of the three auth routes. -/
def isAuthRequest (r : Request) : Prop :=
  r.method = "POST" ∧
    (r.path = "/api/auth/register" ∨ r.path = "/api/auth/login" ∨ r.path = "/api/auth/refresh")

/-- The requests of the four image routes: the upload, the listing, and for a
non-empty `id` without a slash the image and its status. -/
def isImageRequest (r : Request) : Prop :=
  (r.method = "POST" ∧ r.path = "/api/images/upload") ∨
  (r.method = "GET" ∧
    (r.path = "/api/images" ∨
      ∃ id : String, id ≠ "" ∧ '/' ∉ id.data ∧
        (r.path = "/api/images/" ++ id ∨ r.path = "/api/images/" ++ id ++ "/status")))

/-! ## Sample inputs -/

/-- An environment in which only `AUTH_SERVICE_URL` is set. -/
def envAuthSet : Env := fun k =>
  if k = "AUTH_SERVICE_URL" then some "https://auth.example.com" else none

/-- An environment in which `AUTH_SERVICE_URL` is set to a host and port
without a scheme, a non-empty value that `url.Parse` rejects. -/
def envAuthNoScheme : Env := fun k =>
  if k = "AUTH_SERVICE_URL" then some "127.0.0.1:3001" else none

/-- An environment in which every variable is set to the empty string. -/
def envAllEmpty : Env := fun _ => some ""

/-- The configuration of an empty environment. -/
def defaultConfig : Config := loadConfig fun _ => none

/-- A configuration whose app URL has no scheme in front of `host:port`: its
first path segment contains a colon, which `url.Parse` rejects. -/
def badAppConfig : Config :=
  { port := "8080", authServiceURL := "http://localhost:3001", appServiceURL := "127.0.0.1:3002" }

/-- A configuration whose auth URL carries a base path. -/
def authBasePathConfig : Config :=
  { port := "8080", authServiceURL := "http://auth:3001/v1",
    appServiceURL := "http://localhost:3002" }

/-- A configuration whose app URL carries a base path. -/
def appBasePathConfig : Config :=
  { port := "8080", authServiceURL := "http://localhost:3001",
    appServiceURL := "http://app:3002/base" }

/-- A request without headers, query or body. -/
def plainRequest (method path : String) : Request :=
  { method := method, path := path, rawQuery := "", host := "gateway:8080", header := [],
    body := "" }

/-- An upload with a query, a header and a body. -/
def uploadRequest : Request :=
  { method := "POST", path := "/api/images/upload", rawQuery := "a=1", host := "gateway:8080",
    header := [("Content-Type", "image/png")], body := "bytes" }

/-- A request from a browser page served by another origin. -/
def browserRequest (method path : String) : Request :=
  { method := method, path := path, rawQuery := "", host := "gateway:8080",
    header := [("Origin", "https://app.example.com")], body := "" }

/-! ## Facts about the string functions -/

theorem splitSlash_ne_nil (s : List Char) : splitSlash s ≠ [] := by
  cases s with
  | nil => simp [splitSlash]
  | cons c cs =>
    unfold splitSlash
    split
    · simp
    · split <;> simp

theorem splitSlash_slash (cs : List Char) : splitSlash ('/' :: cs) = [] :: splitSlash cs := by
  simp [splitSlash]

/-- A piece without a slash in front of a slash is the first piece. -/
theorem splitSlash_piece (s t : List Char) (h : '/' ∉ s) :
    splitSlash (s ++ '/' :: t) = s :: splitSlash t := by
  induction s with
  | nil => simp [splitSlash]
  | cons c cs ih =>
    have hc : c ≠ '/' := fun e => h (by simp [e])
    have hcs : '/' ∉ cs := fun e => h (by simp [e])
    rw [List.cons_append, splitSlash.eq_2]
    simp only [hc, if_false]
    rw [ih hcs]

/-- A string without a slash is a single piece. -/
theorem splitSlash_last (s : List Char) (h : '/' ∉ s) : splitSlash s = [s] := by
  induction s with
  | nil => simp [splitSlash]
  | cons c cs ih =>
    have hc : c ≠ '/' := fun e => h (by simp [e])
    have hcs : '/' ∉ cs := fun e => h (by simp [e])
    rw [splitSlash.eq_2]
    simp only [hc, if_false]
    rw [ih hcs]

/-- Two strings with the same pieces are the same string. -/
theorem splitSlash_injective (a b : List Char) (h : splitSlash a = splitSlash b) : a = b := by
  induction a generalizing b with
  | nil =>
    cases b with
    | nil => rfl
    | cons d ds =>
      exfalso
      rw [show splitSlash ([] : List Char) = [[]] from rfl, splitSlash.eq_2] at h
      have := splitSlash_ne_nil ds
      split at h
      · simp_all
      · split at h <;> simp at h
  | cons c cs ih =>
    cases b with
    | nil =>
      exfalso
      rw [show splitSlash ([] : List Char) = [[]] from rfl, splitSlash.eq_2] at h
      have := splitSlash_ne_nil cs
      split at h
      · simp_all
      · split at h <;> simp at h
    | cons d ds =>
      by_cases hc : c = '/' <;> by_cases hd : d = '/'
      · subst hc hd
        simp only [splitSlash_slash, List.cons.injEq, true_and] at h
        rw [ih ds h]
      · subst hc
        exfalso
        rw [splitSlash_slash] at h
        rw [splitSlash.eq_2 d ds] at h    -- unfold the right side
        simp only [hd, if_false] at h
        split at h <;> simp at h
      · subst hd
        exfalso
        rw [splitSlash_slash] at h
        rw [splitSlash.eq_2 c cs] at h
        simp only [hc, if_false] at h
        split at h <;> simp at h
      · rw [splitSlash.eq_2 c cs, splitSlash.eq_2 d ds] at h
        simp only [hc, hd, if_false] at h
        obtain ⟨x, xs, hx⟩ := List.exists_cons_of_ne_nil (splitSlash_ne_nil cs)
        obtain ⟨y, ys, hy⟩ := List.exists_cons_of_ne_nil (splitSlash_ne_nil ds)
        rw [hx, hy] at h
        simp only [List.cons.injEq] at h
        obtain ⟨⟨h1, h2⟩, h3⟩ := h
        have : splitSlash cs = splitSlash ds := by rw [hx, hy, h2, h3]
        rw [h1, ih ds this]

/-! ## Facts about the chain -/

/-- The CORS middleware of `main` stops exactly the cross-origin preflights. -/
theorem applyCors_aborts (w : Writer) (r : Request) :
    (applyCors corsConfig w r).2 = (crossOrigin r && r.method == "OPTIONS") := by
  unfold applyCors crossOrigin
  have hc : corsConfig.allowOrigins.contains "*" = true := by decide
  simp only [hc, Bool.true_or, Bool.not_true]
  by_cases h1 : headerGet r.header "Origin" = ""
  · simp [h1]
  · by_cases h2 : (headerGet r.header "Origin" == "http://" ++ r.host
        || headerGet r.header "Origin" == "https://" ++ r.host) = true
    · simp [h1, h2]
    · by_cases h3 : r.method = "OPTIONS" <;> simp [h1, h2, h3]

/-- A request that goes on past the CORS middleware has had headers added at
most: no status and no body. -/
theorem applyCors_passes (w : Writer) (r : Request) (h : (applyCors corsConfig w r).2 = false) :
    (applyCors corsConfig w r).1.status = w.status ∧ (applyCors corsConfig w r).1.body = w.body := by
  unfold applyCors at h ⊢
  have hc : corsConfig.allowOrigins.contains "*" = true := by decide
  simp only [hc, Bool.true_or, Bool.not_true] at h ⊢
  split
  · simp
  · split
    · simp
    · split
      · simp_all
      · split
        · simp_all
        · simp

/-- A cross-origin request leaves the CORS middleware with
`Access-Control-Allow-Origin: *` set. -/
theorem applyCors_header (w : Writer) (r : Request) (h : crossOrigin r = true) :
    (applyCors corsConfig w r).1.header.contains ("Access-Control-Allow-Origin", "*") = true := by
  unfold crossOrigin at h
  unfold applyCors
  have hc : corsConfig.allowOrigins.contains "*" = true := by decide
  have hn : normalHeaders corsConfig = [("Access-Control-Allow-Origin", "*")] := by decide
  simp only [Bool.and_eq_true, bne_iff_ne, ne_eq, Bool.not_eq_true'] at h
  obtain ⟨h1, h2⟩ := h
  simp only [hc, Bool.true_or, Bool.not_true, preflightHeaders, hn]
  have h1b : (headerGet r.header "Origin" == "") = false := by simpa using h1
  simp only [h1b, h2, Bool.false_eq_true, if_false]
  by_cases h3 : r.method = "OPTIONS" <;> simp [h3]

/-! ## Facts about the route lookup -/

/-- A pattern of literal segments matches exactly its own segments. -/
theorem matchSegs_lit (loose : Bool) (ls xs : List (List Char)) :
    matchSegs loose (ls.map Seg.lit) xs = true ↔ xs = ls := by
  induction ls generalizing xs with
  | nil => cases xs <;> simp [matchSegs]
  | cons l ls ih =>
    cases xs with
    | nil => simp [matchSegs]
    | cons x xs =>
      simp only [List.map_cons, matchSegs, Bool.and_eq_true, beq_iff_eq, ih, List.cons.injEq]
      constructor
      · rintro ⟨h1, h2⟩; exact ⟨h1.symm, h2⟩
      · rintro ⟨h1, h2⟩; exact ⟨h1.symm, h2⟩

/-- A path matches a pattern without parameters only if it is that pattern. -/
theorem path_eq_of_match_lit (loose : Bool) (pattern path : String)
    (hp : parsePattern pattern = (splitSlash pattern.data).map Seg.lit)
    (h : matchSegs loose (parsePattern pattern) (splitSlash path.data) = true) :
    path = pattern := by
  rw [hp, matchSegs_lit] at h
  exact String.ext (splitSlash_injective _ _ h)

/-- The route the lookup finds is one of the table and matches the request. -/
theorem findRoute_some (r : Request) (rt : Route) (h : findRoute r = some rt) :
    rt ∈ routes ∧ rt.method = r.method ∧
      matchSegs false (parsePattern rt.pattern) (splitSlash r.path.data) = true := by
  unfold findRoute at h
  have h1 := List.mem_of_find?_eq_some h
  have h2 := List.find?_some h
  simp only [Bool.and_eq_true, beq_iff_eq] at h2
  exact ⟨h1, h2.1, h2.2⟩

/-- The lookup selects a handler bound to the auth URL exactly for the
requests of the three auth routes. -/
theorem dispatch_auth_iff (r : Request) :
    dispatch r = .route (.proxy .auth) ↔ isAuthRequest r := by
  constructor
  · intro h
    unfold dispatch at h
    cases hf : findRoute r with
    | none => rw [hf] at h; simp only at h; split at h <;> simp at h
    | some rt =>
      rw [hf] at h
      simp only [Dispatch.route.injEq] at h
      obtain ⟨hmem, hmeth, hmatch⟩ := findRoute_some r rt hf
      simp only [routes, List.mem_cons, List.mem_singleton, List.not_mem_nil, or_false] at hmem
      rcases hmem with rfl | rfl | rfl | rfl | rfl | rfl | rfl | rfl <;> simp at h
      · exact ⟨hmeth.symm, Or.inl (path_eq_of_match_lit _ _ _ (by decide) hmatch)⟩
      · exact ⟨hmeth.symm, Or.inr (Or.inl (path_eq_of_match_lit _ _ _ (by decide) hmatch))⟩
      · exact ⟨hmeth.symm, Or.inr (Or.inr (path_eq_of_match_lit _ _ _ (by decide) hmatch))⟩
  · rintro ⟨hm, hp⟩
    obtain ⟨m, p, q, ho, hd, b⟩ := r
    simp only at hm hp
    subst hm
    rcases hp with rfl | rfl | rfl <;> rfl

/-- The chain of a handler, once the CORS middleware lets the request pass. -/
theorem chain_of_pass (h : Writer → Request → Step) (r : Request)
    (hp : (crossOrigin r && r.method == "OPTIONS") = false) :
    chain h r = finish (h (applyCors corsConfig Writer.fresh r).1 r) := by
  unfold chain
  rw [applyCors_aborts, hp]
  simp

/-- The chain of a handler for a cross-origin preflight: the handler is not
run. -/
theorem chain_of_preflight (h : Writer → Request → Step) (r : Request)
    (hp : (crossOrigin r && r.method == "OPTIONS") = true) :
    chain h r = .written (applyCors corsConfig Writer.fresh r).1 := by
  unfold chain
  rw [applyCors_aborts, hp]
  simp

/-- The status of a stopped preflight is 204. -/
theorem applyCors_preflight_status (w : Writer) (r : Request)
    (hp : (crossOrigin r && r.method == "OPTIONS") = true) :
    (applyCors corsConfig w r).1.status = some 204 := by
  simp only [Bool.and_eq_true, beq_iff_eq] at hp
  obtain ⟨hco, hm⟩ := hp
  unfold crossOrigin at hco
  simp only [Bool.and_eq_true, bne_iff_ne, ne_eq, Bool.not_eq_true'] at hco
  obtain ⟨h1, h2⟩ := hco
  have h1b : (headerGet r.header "Origin" == "") = false := by simpa using h1
  have hc : corsConfig.allowOrigins.contains "*" = true := by decide
  unfold applyCors
  simp only [hc, Bool.true_or, Bool.not_true, h1b, h2, Bool.false_eq_true, if_false, hm]
  simp

/-- Whatever handler of the gateway ends the chain, a header the CORS
middleware has set is still there in the reply. -/
theorem finish_keeps_cors (cfg : Config) (w : Writer) (r : Request)
    (hw : w.header.contains ("Access-Control-Allow-Origin", "*") = true) :
    (∀ h : Handler, (finish (h.run cfg w r)).allowsAnyOrigin = true) ∧
    (finish (noRouteHandler cfg.appServiceURL w r)).allowsAnyOrigin = true := by
  have hj : ∀ code obj, (Reply.written (cJSON w code obj)).allowsAnyOrigin = true := by
    intro code obj
    simp only [Reply.allowsAnyOrigin, cJSON, List.contains_eq_any_beq, List.any_append,
      Bool.or_eq_true]
    left
    simpa [List.contains_eq_any_beq] using hw
  have hp : ∀ u, (finish (proxyRequest u w r)).allowsAnyOrigin = true := by
    intro u
    unfold proxyRequest
    cases urlParse u with
    | none => exact hj _ _
    | some t => simpa [finish, Reply.allowsAnyOrigin] using hw
  refine ⟨fun h => ?_, ?_⟩
  · cases h with
    | health => exact hj _ _
    | proxy b => exact hp _
  · unfold noRouteHandler
    cases urlParse cfg.appServiceURL with
    | none => simpa [finish, Reply.allowsAnyOrigin] using hw
    | some t => simpa [finish, Reply.allowsAnyOrigin] using hw

/-! ## Facts about the director -/

theorem hasPrefix_slash (s : List Char) : hasPrefix s ['/'] = true ↔ ∃ t, s = '/' :: t := by
  cases s with
  | nil => simp [hasPrefix]
  | cons c cs => simp [hasPrefix]

theorem hasSuffix_slash (s : List Char) : hasSuffix s ['/'] = true ↔ ∃ t, s = t ++ ['/'] := by
  unfold hasSuffix
  rw [List.reverse_singleton, hasPrefix_slash]
  constructor
  · rintro ⟨t, ht⟩
    exact ⟨t.reverse, by rw [← List.reverse_reverse s, ht]; simp⟩
  · rintro ⟨t, ht⟩
    exact ⟨t.reverse, by rw [ht]; simp⟩

/-- The joined path ends with the second path in full. -/
theorem singleJoiningSlash_suffix (a b : List Char) :
    ∃ pre, singleJoiningSlash a b = pre ++ b := by
  unfold singleJoiningSlash
  split
  · rename_i h
    simp only [Bool.and_eq_true] at h
    obtain ⟨t, ht⟩ := (hasSuffix_slash a).1 h.1
    obtain ⟨u, hu⟩ := (hasPrefix_slash b).1 h.2
    exact ⟨t, by rw [ht, hu]; simp⟩
  · split
    · exact ⟨a ++ ['/'], by simp⟩
    · exact ⟨a, rfl⟩

/-- Behind an empty base path or the base path `/`, a path that starts with a
slash is left as it is. -/
theorem singleJoiningSlash_root (a b : List Char) (ha : a = [] ∨ a = ['/'])
    (hb : hasPrefix b ['/'] = true) : singleJoiningSlash a b = b := by
  obtain ⟨u, hu⟩ := (hasPrefix_slash b).1 hb
  subst hu
  rcases ha with rfl | rfl
  · simp [singleJoiningSlash, hasSuffix, hasPrefix]
  · simp [singleJoiningSlash, hasSuffix, hasPrefix]

/-- The outgoing path ends with the inbound path in full. -/
theorem rewrite_path_suffix (t : URL) (r : Request) :
    ∃ pre, (rewriteRequestURL t r).path.data = pre ++ r.path.data :=
  singleJoiningSlash_suffix _ _

/-- The outgoing path is the inbound path when the target has no base path. -/
theorem rewrite_path_same (t : URL) (r : Request) (ht : t.path = "" ∨ t.path = "/")
    (hr : hasPrefix r.path.data ['/'] = true) : (rewriteRequestURL t r).path = r.path := by
  apply String.ext
  show singleJoiningSlash t.path.data r.path.data = r.path.data
  apply singleJoiningSlash_root _ _ _ hr
  rcases ht with h | h <;> simp [h]

/-- The chain of `proxyRequest` on a URL that parses relays, unless the request
is a cross-origin preflight. -/
theorem chain_proxy_some (u : String) (t : URL) (r : Request) (ht : urlParse u = some t)
    (hp : (crossOrigin r && r.method == "OPTIONS") = false) :
    chain (proxyRequest u) r =
      .relayed (applyCors corsConfig Writer.fresh r).1 (rewriteRequestURL t r) := by
  rw [chain_of_pass _ r hp]
  simp [proxyRequest, ht, finish]

/-- On a route bound to a service URL that does not parse, the reply is the
500 of `proxyRequest` with its JSON error object. -/
theorem route_parse_error (cfg : Config) (r : Request) (b : Backend)
    (hd : dispatch r = .route (.proxy b)) (hu : urlParse (cfg.serviceURL b) = none)
    (hp : (crossOrigin r && r.method == "OPTIONS") = false) :
    serve cfg r = .written
      (cJSON (applyCors corsConfig Writer.fresh r).1 500 [("error", "Invalid service URL")]) := by
  unfold serve
  rw [hd]
  simp only
  rw [chain_of_pass _ r hp]
  simp [Handler.run, proxyRequest, hu, finish]

/-- On the catch-all with an app URL that does not parse, the reply is the
bare 500 of the recovered panic: no body is written. -/
theorem catch_all_parse_error (cfg : Config) (r : Request)
    (hd : dispatch r = .noRoute) (hu : urlParse cfg.appServiceURL = none)
    (hp : (crossOrigin r && r.method == "OPTIONS") = false) :
    serve cfg r = .written { (applyCors corsConfig Writer.fresh r).1 with status := some 500 } ∧
    ({ (applyCors corsConfig Writer.fresh r).1 with status := some 500 } : Writer).body = none := by
  refine ⟨?_, ?_⟩
  · unfold serve
    rw [hd]
    simp only
    rw [chain_of_pass _ r hp]
    simp [noRouteHandler, hu, finish]
  · exact (applyCors_passes Writer.fresh r (by rw [applyCors_aborts, hp])).2

/-! ## The image routes -/

theorem split_image (id : List Char) (h : '/' ∉ id) :
    splitSlash ("/api/images/".data ++ id) = [[], "api".data, "images".data, id] := by
  have e : "/api/images/".data ++ id
      = '/' :: ("api".data ++ '/' :: ("images".data ++ '/' :: id)) := rfl
  rw [e, splitSlash_slash, splitSlash_piece _ _ (by decide), splitSlash_piece _ _ (by decide),
    splitSlash_last _ h]

theorem split_image_status (id : List Char) (h : '/' ∉ id) :
    splitSlash ("/api/images/".data ++ id ++ "/status".data) =
      [[], "api".data, "images".data, id, "status".data] := by
  have e : "/api/images/".data ++ id ++ "/status".data
      = '/' :: ("api".data ++ '/' :: ("images".data ++ '/' :: (id ++ '/' :: "status".data))) := by
    simp
  rw [e, splitSlash_slash, splitSlash_piece _ _ (by decide), splitSlash_piece _ _ (by decide),
    splitSlash_piece _ _ h, splitSlash_last _ (by decide)]

/-- A `GET` of `/api/images/<id>` finds the route `/api/images/:id`. -/
theorem findRoute_image (id : String) (h0 : id ≠ "") (h : '/' ∉ id.data) (q ho : String)
    (hd : List (String × String)) (b : String) :
    findRoute ⟨"GET", "/api/images/" ++ id, q, ho, hd, b⟩
      = some ⟨"GET", "/api/images/:id", .proxy .app⟩ := by
  have hne : id.data ≠ [] := fun e => h0 (String.ext e)
  have hie : id.data.isEmpty = false := by
    cases hid : id.data <;> simp_all
  unfold findRoute
  simp only [String.data_append, split_image _ h]
  have p1 : parsePattern "/health" = [.lit [], .lit "health".data] := by decide
  have p6 : parsePattern "/api/images" = [.lit [], .lit "api".data, .lit "images".data] := by
    decide
  have p7 : parsePattern "/api/images/:id"
      = [.lit [], .lit "api".data, .lit "images".data, .param "id".data] := by decide
  simp [routes, List.find?, p1, p6, p7, matchSegs, hie]

/-- A `GET` of `/api/images/<id>/status` finds the route
`/api/images/:id/status`. -/
theorem findRoute_image_status (id : String) (h : '/' ∉ id.data) (q ho : String)
    (hd : List (String × String)) (b : String) :
    findRoute ⟨"GET", "/api/images/" ++ id ++ "/status", q, ho, hd, b⟩
      = some ⟨"GET", "/api/images/:id/status", .proxy .app⟩ := by
  unfold findRoute
  simp only [String.data_append, split_image_status _ h]
  have p1 : parsePattern "/health" = [.lit [], .lit "health".data] := by decide
  have p6 : parsePattern "/api/images" = [.lit [], .lit "api".data, .lit "images".data] := by
    decide
  have p7 : parsePattern "/api/images/:id"
      = [.lit [], .lit "api".data, .lit "images".data, .param "id".data] := by decide
  have p8 : parsePattern "/api/images/:id/status"
      = [.lit [], .lit "api".data, .lit "images".data, .param "id".data, .lit "status".data] := by
    decide
  simp [routes, List.find?, p1, p6, p7, p8, matchSegs, splitSlash]

/-- Every request of an image route is dispatched to a handler bound to the
app URL, and its path starts with a slash. -/
theorem dispatch_image (r : Request) (h : isImageRequest r) :
    dispatch r = .route (.proxy .app) ∧ hasPrefix r.path.data ['/'] = true := by
  obtain ⟨m, p, q, ho, hd, b⟩ := r
  rcases h with ⟨hm, hp⟩ | ⟨hm, hp | ⟨id, h0, hs, hp | hp⟩⟩
  · simp only at hm hp; subst hm hp; exact ⟨rfl, rfl⟩
  · simp only at hm hp; subst hm hp; exact ⟨rfl, rfl⟩
  · simp only at hm hp; subst hm hp
    refine ⟨?_, ?_⟩
    · unfold dispatch; rw [findRoute_image id h0 hs]
    · simp only [String.data_append]; rfl
  · simp only at hm hp; subst hm hp
    refine ⟨?_, ?_⟩
    · unfold dispatch; rw [findRoute_image_status id hs]
    · simp only [String.data_append, List.append_assoc]; rfl

/-! ## Replies of the three kinds of handler chain -/

/-- A request without an `OPTIONS` method is no preflight. -/
theorem not_preflight_of_method (r : Request) (h : r.method ≠ "OPTIONS") :
    (crossOrigin r && r.method == "OPTIONS") = false := by
  simp [h]

/-- A route bound to a service URL that parses relays to that URL. -/
theorem serve_proxy_route (cfg : Config) (r : Request) (b : Backend) (t : URL)
    (hd : dispatch r = .route (.proxy b)) (ht : urlParse (cfg.serviceURL b) = some t)
    (hp : (crossOrigin r && r.method == "OPTIONS") = false) :
    serve cfg r = .relayed (applyCors corsConfig Writer.fresh r).1 (rewriteRequestURL t r) := by
  unfold serve
  rw [hd]
  exact chain_proxy_some _ t r ht hp

/-- The catch-all under an app URL that parses relays to that URL. -/
theorem serve_catch_all (cfg : Config) (r : Request) (t : URL)
    (hd : dispatch r = .noRoute) (ht : urlParse cfg.appServiceURL = some t)
    (hp : (crossOrigin r && r.method == "OPTIONS") = false) :
    serve cfg r = .relayed (applyCors corsConfig Writer.fresh r).1 (rewriteRequestURL t r) := by
  unfold serve
  rw [hd]
  simp only
  rw [chain_of_pass _ r hp]
  simp [noRouteHandler, ht, finish]

/-- Behind a target without base path and query, the outgoing URL has the
path and the query of the inbound request. -/
theorem rewrite_plain_target (scheme host : String) (r : Request)
    (hr : hasPrefix r.path.data ['/'] = true) :
    rewriteRequestURL ⟨scheme, "", host, "", ""⟩ r = ⟨scheme, host, r.path, r.rawQuery⟩ := by
  have hpath := rewrite_path_same ⟨scheme, "", host, "", ""⟩ r (Or.inl rfl) hr
  have hq : (rewriteRequestURL ⟨scheme, "", host, "", ""⟩ r).rawQuery = r.rawQuery := by
    simp [rewriteRequestURL]
  cases hout : rewriteRequestURL ⟨scheme, "", host, "", ""⟩ r with
  | mk s h p q =>
    rw [hout] at hpath hq
    have hs : (rewriteRequestURL ⟨scheme, "", host, "", ""⟩ r).scheme = scheme := rfl
    have hh : (rewriteRequestURL ⟨scheme, "", host, "", ""⟩ r).host = host := rfl
    rw [hout] at hs hh
    simp only at hpath hq hs hh
    rw [hpath, hq, hs, hh]

/-- The path of an auth request starts with a slash and its method is no
`OPTIONS`. -/
theorem auth_request_shape (r : Request) (h : isAuthRequest r) :
    hasPrefix r.path.data ['/'] = true ∧ r.method ≠ "OPTIONS" := by
  obtain ⟨hm, hp⟩ := h
  refine ⟨?_, by rw [hm]; decide⟩
  rcases hp with h | h | h <;> rw [h] <;> rfl

/-- The method of an image request is no `OPTIONS`. -/
theorem image_request_method (r : Request) (h : isImageRequest r) : r.method ≠ "OPTIONS" := by
  rcases h with ⟨hm, _⟩ | ⟨hm, _⟩ <;> rw [hm] <;> decide

/-! ## The claims -/

/-- C7 as stated fails: `127.0.0.1:3001` is a non-empty value of
`AUTH_SERVICE_URL`, it is the auth URL in effect, and `url.Parse` rejects it;
a `POST /api/auth/login` is then answered 500 by `proxyRequest` and nothing is
forwarded to that value. -/
theorem nonempty_value_not_forwarded :
    envAuthNoScheme "AUTH_SERVICE_URL" = some "127.0.0.1:3001" ∧
    (loadConfig envAuthNoScheme).authServiceURL = "127.0.0.1:3001" ∧
    urlParse (loadConfig envAuthNoScheme).authServiceURL = none ∧
    serve (loadConfig envAuthNoScheme) (plainRequest "POST" "/api/auth/login") =
      .written { header := [("Content-Type", "application/json; charset=utf-8")],
                 status := some 500, body := some [("error", "Invalid service URL")] } := by
  decide

/-- C7, amended: the effective configuration is the environment value or the
hardcoded default, read once. With `AUTH_SERVICE_URL` unset the auth URL is
`http://localhost:3001` and every auth route is relayed to `localhost:3001`
with its path and query; with it set to a non-empty `v` the auth URL is `v`,
and every auth route is relayed to `v` when `v` parses as a URL and answered
500 by `proxyRequest` when it does not. The same holds for `APP_SERVICE_URL`,
`http://localhost:3002` and the image routes, and the catch-all (a request the
router hands to `NoRoute`, not a cross-origin preflight) is relayed to the
same app URL when it parses. `PORT` defaults to `8080` and the listen address
is `":" + port`. -/
theorem effective_configuration_forwards (env : Env) (v : String) (hv : v ≠ "") :
    (env "AUTH_SERVICE_URL" = none → (loadConfig env).authServiceURL = "http://localhost:3001") ∧
    (env "AUTH_SERVICE_URL" = some v → (loadConfig env).authServiceURL = v) ∧
    (env "APP_SERVICE_URL" = none → (loadConfig env).appServiceURL = "http://localhost:3002") ∧
    (env "APP_SERVICE_URL" = some v → (loadConfig env).appServiceURL = v) ∧
    (env "PORT" = none → listenAddr (loadConfig env) = ":8080") ∧
    (env "PORT" = some v → listenAddr (loadConfig env) = ":" ++ v) ∧
    (∀ r, isAuthRequest r → env "AUTH_SERVICE_URL" = none →
      serve (loadConfig env) r = .relayed (applyCors corsConfig Writer.fresh r).1
        ⟨"http", "localhost:3001", r.path, r.rawQuery⟩) ∧
    (∀ r t, isAuthRequest r → env "AUTH_SERVICE_URL" = some v → urlParse v = some t →
      serve (loadConfig env) r = .relayed (applyCors corsConfig Writer.fresh r).1
        (rewriteRequestURL t r)) ∧
    (∀ r, isAuthRequest r → env "AUTH_SERVICE_URL" = some v → urlParse v = none →
      serve (loadConfig env) r = .written
        (cJSON (applyCors corsConfig Writer.fresh r).1 500 [("error", "Invalid service URL")])) ∧
    (∀ r, isImageRequest r → env "APP_SERVICE_URL" = none →
      serve (loadConfig env) r = .relayed (applyCors corsConfig Writer.fresh r).1
        ⟨"http", "localhost:3002", r.path, r.rawQuery⟩) ∧
    (∀ r t, isImageRequest r → env "APP_SERVICE_URL" = some v → urlParse v = some t →
      serve (loadConfig env) r = .relayed (applyCors corsConfig Writer.fresh r).1
        (rewriteRequestURL t r)) ∧
    (∀ r, isImageRequest r → env "APP_SERVICE_URL" = some v → urlParse v = none →
      serve (loadConfig env) r = .written
        (cJSON (applyCors corsConfig Writer.fresh r).1 500 [("error", "Invalid service URL")])) ∧
    (∀ r, dispatch r = .noRoute → (crossOrigin r && r.method == "OPTIONS") = false →
      env "APP_SERVICE_URL" = none →
      serve (loadConfig env) r = .relayed (applyCors corsConfig Writer.fresh r).1
        (rewriteRequestURL ⟨"http", "", "localhost:3002", "", ""⟩ r)) ∧
    (∀ r t, dispatch r = .noRoute → (crossOrigin r && r.method == "OPTIONS") = false →
      env "APP_SERVICE_URL" = some v → urlParse v = some t →
      serve (loadConfig env) r = .relayed (applyCors corsConfig Writer.fresh r).1
        (rewriteRequestURL t r)) := by
  have hAuthNone : env "AUTH_SERVICE_URL" = none →
      (loadConfig env).authServiceURL = "http://localhost:3001" := by
    intro h; simp [loadConfig, getenv, h]
  have hAuthSome : env "AUTH_SERVICE_URL" = some v → (loadConfig env).authServiceURL = v := by
    intro h; simp [loadConfig, getenv, h, hv]
  have hAppNone : env "APP_SERVICE_URL" = none →
      (loadConfig env).appServiceURL = "http://localhost:3002" := by
    intro h; simp [loadConfig, getenv, h]
  have hAppSome : env "APP_SERVICE_URL" = some v → (loadConfig env).appServiceURL = v := by
    intro h; simp [loadConfig, getenv, h, hv]
  have pAuth : urlParse "http://localhost:3001" = some ⟨"http", "", "localhost:3001", "", ""⟩ := by
    decide
  have pApp : urlParse "http://localhost:3002" = some ⟨"http", "", "localhost:3002", "", ""⟩ := by
    decide
  refine ⟨hAuthNone, hAuthSome, hAppNone, hAppSome, ?_, ?_, ?_, ?_, ?_, ?_, ?_, ?_, ?_, ?_⟩
  · intro h; simp [loadConfig, listenAddr, getenv, h]
  · intro h; simp [loadConfig, listenAddr, getenv, h, hv]
  · intro r hr he
    obtain ⟨hs, hm⟩ := auth_request_shape r hr
    rw [serve_proxy_route (loadConfig env) r .auth _ ((dispatch_auth_iff r).2 hr)
      (by rw [Config.serviceURL, hAuthNone he]; exact pAuth) (not_preflight_of_method r hm),
      rewrite_plain_target _ _ r hs]
  · intro r t hr he ht
    obtain ⟨_, hm⟩ := auth_request_shape r hr
    exact serve_proxy_route (loadConfig env) r .auth t ((dispatch_auth_iff r).2 hr)
      (by rw [Config.serviceURL, hAuthSome he]; exact ht) (not_preflight_of_method r hm)
  · intro r hr he ht
    obtain ⟨_, hm⟩ := auth_request_shape r hr
    exact route_parse_error (loadConfig env) r .auth ((dispatch_auth_iff r).2 hr)
      (by rw [Config.serviceURL, hAuthSome he]; exact ht) (not_preflight_of_method r hm)
  · intro r hr he
    obtain ⟨hd, hs⟩ := dispatch_image r hr
    rw [serve_proxy_route (loadConfig env) r .app _ hd
      (by rw [Config.serviceURL, hAppNone he]; exact pApp)
      (not_preflight_of_method r (image_request_method r hr)),
      rewrite_plain_target _ _ r hs]
  · intro r t hr he ht
    exact serve_proxy_route (loadConfig env) r .app t (dispatch_image r hr).1
      (by rw [Config.serviceURL, hAppSome he]; exact ht)
      (not_preflight_of_method r (image_request_method r hr))
  · intro r hr he ht
    exact route_parse_error (loadConfig env) r .app (dispatch_image r hr).1
      (by rw [Config.serviceURL, hAppSome he]; exact ht)
      (not_preflight_of_method r (image_request_method r hr))
  · intro r hd hp he
    exact serve_catch_all (loadConfig env) r _ hd (by rw [hAppNone he]; exact pApp) hp
  · intro r t hd hp he ht
    exact serve_catch_all (loadConfig env) r t hd (by rw [hAppSome he]; exact ht) hp

/-- C7, amended, at a concrete environment: with only `AUTH_SERVICE_URL` set,
to `https://auth.example.com`, that value is the auth URL and a login is
relayed to `auth.example.com`; the app URL and the port are the defaults, and
an image listing is relayed to `localhost:3002`. -/
theorem effective_configuration_forwards_witness :
    (loadConfig envAuthSet).authServiceURL = "https://auth.example.com" ∧
    serve (loadConfig envAuthSet) (plainRequest "POST" "/api/auth/login") =
      .relayed Writer.fresh ⟨"https", "auth.example.com", "/api/auth/login", ""⟩ ∧
    (loadConfig envAuthSet).appServiceURL = "http://localhost:3002" ∧
    serve (loadConfig envAuthSet) (plainRequest "GET" "/api/images") =
      .relayed Writer.fresh ⟨"http", "localhost:3002", "/api/images", ""⟩ ∧
    listenAddr (loadConfig envAuthSet) = ":8080" := by
  have h := effective_configuration_forwards envAuthSet "https://auth.example.com" (by decide)
  refine ⟨h.2.1 rfl, ?_, h.2.2.1 rfl, ?_, h.2.2.2.2.1 rfl⟩
  · rw [h.2.2.2.2.2.2.2.1 (plainRequest "POST" "/api/auth/login")
      ⟨"https", "", "auth.example.com", "", ""⟩ ⟨rfl, Or.inr (Or.inl rfl)⟩ rfl (by decide)]
    decide
  · rw [h.2.2.2.2.2.2.2.2.2.1 (plainRequest "GET" "/api/images")
      (Or.inr ⟨rfl, Or.inl rfl⟩) rfl]
    decide

/-- C10: a variable set to the empty string is treated as unset. For `PORT`,
`AUTH_SERVICE_URL` and `APP_SERVICE_URL` the empty value yields the default;
the configuration is the one of the environment with the empty variables
removed; and the effective port and service URLs are never empty. -/
theorem empty_value_is_unset (env : Env) :
    (env "PORT" = some "" → (loadConfig env).port = "8080") ∧
    (env "AUTH_SERVICE_URL" = some "" →
      (loadConfig env).authServiceURL = "http://localhost:3001") ∧
    (env "APP_SERVICE_URL" = some "" →
      (loadConfig env).appServiceURL = "http://localhost:3002") ∧
    loadConfig env = loadConfig (fun k => if env k = some "" then none else env k) ∧
    (loadConfig env).port ≠ "" ∧ (loadConfig env).authServiceURL ≠ "" ∧
    (loadConfig env).appServiceURL ≠ "" := by
  refine ⟨?_, ?_, ?_, ?_, ?_, ?_, ?_⟩
  · intro h; simp [loadConfig, getenv, h]
  · intro h; simp [loadConfig, getenv, h]
  · intro h; simp [loadConfig, getenv, h]
  · have key : ∀ k, getenv (fun k => if env k = some "" then none else env k) k = getenv env k := by
      intro k
      unfold getenv
      by_cases h : env k = some "" <;> simp [h]
    simp only [loadConfig, key]
  · simp only [loadConfig]; split <;> simp_all
  · simp only [loadConfig]; split <;> simp_all
  · simp only [loadConfig]; split <;> simp_all

/-- C10 at the environment in which all three variables are empty: the
configuration is the default one. -/
theorem empty_value_is_unset_witness :
    (loadConfig envAllEmpty).port = "8080" ∧
    (loadConfig envAllEmpty).authServiceURL = "http://localhost:3001" ∧
    (loadConfig envAllEmpty).appServiceURL = "http://localhost:3002" :=
  ⟨(empty_value_is_unset envAllEmpty).1 rfl, (empty_value_is_unset envAllEmpty).2.1 rfl,
    (empty_value_is_unset envAllEmpty).2.2.1 rfl⟩

/-- C4: every `GET /health` is answered by the gateway itself with status 200
and the JSON object with the one field `status` = `Gateway is running`,
whatever the configuration; nothing is relayed to a backend, and the handler
has one branch only. -/
theorem health_always_ok (cfg : Config) (r : Request)
    (hm : r.method = "GET") (hp : r.path = "/health") :
    (∃ w, serve cfg r = .written w ∧ w.status = some 200
      ∧ w.body = some [("status", "Gateway is running")]) ∧
    (∀ w, healthHandler w r = .returned (cJSON w 200 [("status", "Gateway is running")])) := by
  refine ⟨?_, fun _ => rfl⟩
  obtain ⟨m, p, q, ho, hd, b⟩ := r
  simp only at hm hp
  subst hm hp
  have hdis : dispatch ⟨"GET", "/health", q, ho, hd, b⟩ = .route .health := rfl
  have hab := applyCors_aborts Writer.fresh ⟨"GET", "/health", q, ho, hd, b⟩
  have hno : (applyCors corsConfig Writer.fresh ⟨"GET", "/health", q, ho, hd, b⟩).2 = false := by
    rw [hab]; simp
  simp only [serve, hdis, chain, hno, Handler.run, healthHandler, finish, Bool.false_eq_true,
    if_false]
  exact ⟨_, rfl, rfl, rfl⟩

/-- C4 at a concrete request and a configuration whose service URLs do not
parse. -/
theorem health_always_ok_witness :
    ∃ w, serve { port := "8080", authServiceURL := "://", appServiceURL := "127.0.0.1:3002" }
        (plainRequest "GET" "/health") = .written w ∧ w.status = some 200
      ∧ w.body = some [("status", "Gateway is running")] :=
  (health_always_ok { port := "8080", authServiceURL := "://", appServiceURL := "127.0.0.1:3002" }
    (plainRequest "GET" "/health") rfl rfl).1

/-- C9: the handler bound to the auth base URL is selected if and only if the
method is `POST` and the path is exactly `/api/auth/register`,
`/api/auth/login` or `/api/auth/refresh`; for every other request the reply
of the gateway is the same whatever the auth base URL is, so none of them is
forwarded using it. -/
theorem auth_handler_selection (r : Request) :
    (dispatch r = .route (.proxy .auth) ↔
      r.method = "POST" ∧ (r.path = "/api/auth/register" ∨ r.path = "/api/auth/login"
        ∨ r.path = "/api/auth/refresh")) ∧
    (¬ (r.method = "POST" ∧ (r.path = "/api/auth/register" ∨ r.path = "/api/auth/login"
        ∨ r.path = "/api/auth/refresh")) →
      ∀ (cfg : Config) (a : String), serve { cfg with authServiceURL := a } r = serve cfg r) := by
  refine ⟨dispatch_auth_iff r, fun hn cfg a => ?_⟩
  have hd : dispatch r ≠ .route (.proxy .auth) := fun h => hn ((dispatch_auth_iff r).1 h)
  unfold serve
  cases hdis : dispatch r with
  | redirect code => rfl
  | noRoute => rfl
  | route h =>
    cases h with
    | health => rfl
    | proxy b =>
      cases b with
      | auth => exact absurd hdis hd
      | app => rfl

/-- C9 at requests under `/api/auth/` that are no auth route: a `GET` of the
login path and a `POST` of a logout path get the same reply under two
different auth URLs, and neither selects the auth handler. -/
theorem auth_handler_selection_witness :
    serve { defaultConfig with authServiceURL := "http://elsewhere:9" }
        (plainRequest "GET" "/api/auth/login") =
      serve defaultConfig (plainRequest "GET" "/api/auth/login") ∧
    serve { defaultConfig with authServiceURL := "http://elsewhere:9" }
        (plainRequest "POST" "/api/auth/logout") =
      serve defaultConfig (plainRequest "POST" "/api/auth/logout") ∧
    dispatch (plainRequest "POST" "/api/auth/logout") ≠ .route (.proxy .auth) :=
  ⟨(auth_handler_selection (plainRequest "GET" "/api/auth/login")).2 (by decide) defaultConfig _,
   (auth_handler_selection (plainRequest "POST" "/api/auth/logout")).2 (by decide) defaultConfig _,
   fun h => absurd ((auth_handler_selection (plainRequest "POST" "/api/auth/logout")).1.1 h)
     (by decide)⟩

/-- C6: a proxy handler hands the inbound request and the writer to the
reverse proxy as it received them. `proxyRequest` on a URL that parses and
the `NoRoute` closure end in `ServeHTTP` on the very writer and request of the
context; whenever either ends in `ServeHTTP`, the request is the inbound one
and the writer is untouched; and whenever the gateway relays, it has written
neither a status nor a body, and the outgoing URL is the director's rewriting
of the inbound request. -/
theorem handoff_is_inbound_request (serviceURL : String) (w : Writer) (r : Request) :
    (∀ t, urlParse serviceURL = some t →
      proxyRequest serviceURL w r = .serveHTTP (some t) w r) ∧
    noRouteHandler serviceURL w r = .serveHTTP (urlParse serviceURL) w r ∧
    (∀ t w' r', proxyRequest serviceURL w r = .serveHTTP t w' r' → r' = r ∧ w' = w) ∧
    (∀ t w' r', noRouteHandler serviceURL w r = .serveHTTP t w' r' → r' = r ∧ w' = w) ∧
    (∀ cfg w' out, serve cfg r = .relayed w' out →
      w'.status = none ∧ w'.body = none ∧ ∃ t, out = rewriteRequestURL t r) := by
  refine ⟨?_, rfl, ?_, ?_, ?_⟩
  · intro t ht
    simp [proxyRequest, ht]
  · intro t w' r' h
    unfold proxyRequest at h
    split at h
    · simp at h
    · simp only [Step.serveHTTP.injEq] at h
      exact ⟨h.2.2.symm, h.2.1.symm⟩
  · intro t w' r' h
    simp only [noRouteHandler, Step.serveHTTP.injEq] at h
    exact ⟨h.2.2.symm, h.2.1.symm⟩
  · intro cfg w' out h
    have key : ∀ hdl : Writer → Request → Step,
        (∀ w0, (∃ w1, hdl w0 r = .returned w1) ∨ hdl w0 r = .serveHTTP none w0 r
          ∨ ∃ t, hdl w0 r = .serveHTTP (some t) w0 r) →
        chain hdl r = .relayed w' out →
        w'.status = none ∧ w'.body = none ∧ ∃ t, out = rewriteRequestURL t r := by
      intro hdl hh hc
      cases hp : (crossOrigin r && r.method == "OPTIONS") with
      | true => rw [chain_of_preflight hdl r hp] at hc; simp at hc
      | false =>
        rw [chain_of_pass hdl r hp] at hc
        have hpass := applyCors_passes Writer.fresh r (by rw [applyCors_aborts, hp])
        rcases hh (applyCors corsConfig Writer.fresh r).1 with ⟨w1, h1⟩ | h1 | ⟨t, h1⟩
        · rw [h1] at hc; simp [finish] at hc
        · rw [h1] at hc; simp [finish] at hc
        · rw [h1] at hc
          simp only [finish, Reply.relayed.injEq] at hc
          rw [← hc.1]
          exact ⟨hpass.1, hpass.2, t, hc.2.symm⟩
    have hproxy : ∀ u w0, (∃ w1, proxyRequest u w0 r = .returned w1)
        ∨ proxyRequest u w0 r = .serveHTTP none w0 r
        ∨ ∃ t, proxyRequest u w0 r = .serveHTTP (some t) w0 r := by
      intro u w0
      unfold proxyRequest
      cases urlParse u with
      | none => exact Or.inl ⟨_, rfl⟩
      | some t => exact Or.inr (Or.inr ⟨t, rfl⟩)
    unfold serve at h
    cases hdis : dispatch r with
    | redirect code => rw [hdis] at h; simp at h
    | noRoute =>
      rw [hdis] at h
      refine key _ (fun w0 => ?_) h
      unfold noRouteHandler
      cases urlParse cfg.appServiceURL with
      | none => exact Or.inr (Or.inl rfl)
      | some t => exact Or.inr (Or.inr ⟨t, rfl⟩)
    | route hd =>
      rw [hdis] at h
      cases hd with
      | health => exact key _ (fun w0 => Or.inl ⟨_, rfl⟩) h
      | proxy b => exact key _ (fun w0 => hproxy _ w0) h

/-- C6 at a concrete request: an upload with a query, a header and a body
reaches `ServeHTTP` unchanged, on an untouched writer. -/
theorem handoff_is_inbound_request_witness :
    proxyRequest "http://localhost:3002" Writer.fresh uploadRequest =
      .serveHTTP (some ⟨"http", "", "localhost:3002", "", ""⟩) Writer.fresh uploadRequest :=
  (handoff_is_inbound_request "http://localhost:3002" Writer.fresh uploadRequest).1 _ (by decide)

/-- C5, the code at the failing input: with `APP_SERVICE_URL=127.0.0.1:3002`,
which `url.Parse` rejects, a request that falls to the catch-all is answered
500 with no body at all (the recovered nil dereference), not with the JSON
error object, while the same configuration on an image route is answered 500
with `error` = `Invalid service URL`. -/
theorem catch_all_ignores_parse_error :
    urlParse badAppConfig.appServiceURL = none ∧
    serve badAppConfig (plainRequest "GET" "/some/frontend/page") =
      .written { header := [], status := some 500, body := none } ∧
    serve badAppConfig (plainRequest "GET" "/api/images") =
      .written { header := [("Content-Type", "application/json; charset=utf-8")],
                 status := some 500, body := some [("error", "Invalid service URL")] } := by
  decide

/-- C8 as stated fails: a `GET /health` without an `Origin` header is answered
without any CORS header, and a cross-origin `POST /api/auth/login/` is answered
by the router's redirect, which no middleware has touched. -/
theorem cors_header_missing :
    (serve defaultConfig (plainRequest "GET" "/health")).allowsAnyOrigin = false ∧
    serve defaultConfig (browserRequest "POST" "/api/auth/login/") = .redirect 307 ∧
    (serve defaultConfig (browserRequest "POST" "/api/auth/login/")).allowsAnyOrigin = false := by
  decide

/-- C8, amended: the policy is one fixed value (all origins; the five methods;
the two headers), and for every cross-origin request that the router does not
answer with its trailing-slash redirect, the reply carries
`Access-Control-Allow-Origin: *`, whatever the route, the configuration and
the handler's outcome (health, relayed, 500, preflight). -/
theorem cors_header_on_chain_replies (cfg : Config) (r : Request)
    (hco : crossOrigin r = true) (hnr : ∀ code, dispatch r ≠ .redirect code) :
    corsConfig.allowOrigins = ["*"] ∧
    corsConfig.allowMethods = ["GET", "POST", "PUT", "DELETE", "OPTIONS"] ∧
    corsConfig.allowHeaders = ["Content-Type", "Authorization"] ∧
    (serve cfg r).allowsAnyOrigin = true := by
  refine ⟨rfl, rfl, rfl, ?_⟩
  have hw := applyCors_header Writer.fresh r hco
  have key : ∀ hdl : Writer → Request → Step,
      (∀ w, w.header.contains ("Access-Control-Allow-Origin", "*") = true →
        (finish (hdl w r)).allowsAnyOrigin = true) →
      (chain hdl r).allowsAnyOrigin = true := by
    intro hdl hh
    cases hp : (crossOrigin r && r.method == "OPTIONS") with
    | true => rw [chain_of_preflight hdl r hp]; exact hw
    | false => rw [chain_of_pass hdl r hp]; exact hh _ hw
  unfold serve
  cases hdis : dispatch r with
  | redirect code => exact absurd hdis (hnr code)
  | noRoute => exact key _ fun w h => (finish_keeps_cors cfg w r h).2
  | route hd => exact key _ fun w h => (finish_keeps_cors cfg w r h).1 hd

/-- C8, amended, at concrete requests from a foreign origin: the health reply
and the 500 of the catch-all under an app URL that does not parse both carry
the header. -/
theorem cors_header_on_chain_replies_witness :
    (serve defaultConfig (browserRequest "GET" "/health")).allowsAnyOrigin = true ∧
    (serve badAppConfig (browserRequest "GET" "/some/frontend/page")).allowsAnyOrigin = true :=
  ⟨(cors_header_on_chain_replies defaultConfig (browserRequest "GET" "/health")
      (by decide) (fun code h => by
        rw [show dispatch (browserRequest "GET" "/health") = .route .health by decide] at h
        cases h)).2.2.2,
   (cors_header_on_chain_replies badAppConfig (browserRequest "GET" "/some/frontend/page")
      (by decide) (fun code h => by
        rw [show dispatch (browserRequest "GET" "/some/frontend/page") = .noRoute by decide] at h
        cases h)).2.2.2⟩

/-- C1 as stated fails: `http://auth:3001/v1` parses as a URL, and under it a
`POST /api/auth/login` leaves the gateway for the path `/v1/api/auth/login`,
which is not the inbound path. -/
theorem auth_path_not_unchanged :
    urlParse authBasePathConfig.authServiceURL = some ⟨"http", "", "auth:3001", "/v1", ""⟩ ∧
    serve authBasePathConfig (plainRequest "POST" "/api/auth/login") =
      .relayed Writer.fresh ⟨"http", "auth:3001", "/v1/api/auth/login", ""⟩ ∧
    "/v1/api/auth/login" ≠ (plainRequest "POST" "/api/auth/login").path := by
  decide

/-- C1, amended: for every `AUTH_SERVICE_URL` that parses as a URL and every
`POST` of `/api/auth/register`, `/api/auth/login` or `/api/auth/refresh`, the
gateway relays the request to the scheme and host of the auth URL; the path
the backend gets is the base path of that URL joined in front of the inbound
path, so it always ends with the whole inbound path (nothing is stripped),
and it is the inbound path itself when the auth URL has no base path (empty
or `/`). -/
theorem auth_routes_forward (cfg : Config) (r : Request) (t : URL)
    (ht : urlParse cfg.authServiceURL = some t) (hm : r.method = "POST")
    (hp : r.path = "/api/auth/register" ∨ r.path = "/api/auth/login"
      ∨ r.path = "/api/auth/refresh") :
    serve cfg r = .relayed (applyCors corsConfig Writer.fresh r).1 (rewriteRequestURL t r) ∧
    (rewriteRequestURL t r).scheme = t.scheme ∧ (rewriteRequestURL t r).host = t.host ∧
    (∃ pre, (rewriteRequestURL t r).path.data = pre ++ r.path.data) ∧
    (t.path = "" ∨ t.path = "/" → (rewriteRequestURL t r).path = r.path) := by
  have hdis := (dispatch_auth_iff r).2 ⟨hm, hp⟩
  have hpre : (crossOrigin r && r.method == "OPTIONS") = false := by
    rw [hm]; simp
  have hslash : hasPrefix r.path.data ['/'] = true := by
    rcases hp with h | h | h <;> rw [h] <;> rfl
  refine ⟨?_, rfl, rfl, rewrite_path_suffix t r, fun h => rewrite_path_same t r h hslash⟩
  unfold serve
  rw [hdis]
  exact chain_proxy_some _ t r ht hpre

/-- C1, amended, at the default configuration: a login is relayed to
`localhost:3001` with the path `/api/auth/login`. -/
theorem auth_routes_forward_witness :
    serve defaultConfig (plainRequest "POST" "/api/auth/login") =
      .relayed Writer.fresh ⟨"http", "localhost:3001", "/api/auth/login", ""⟩ := by
  have h := auth_routes_forward defaultConfig (plainRequest "POST" "/api/auth/login")
    ⟨"http", "", "localhost:3001", "", ""⟩ (by decide) rfl (Or.inr (Or.inl rfl))
  rw [h.1]
  decide

/-- C2 as stated fails: `http://app:3002/base` parses as a URL, and under it a
`GET /api/images/abc-123/status` leaves the gateway for the path
`/base/api/images/abc-123/status`. -/
theorem image_path_not_unchanged :
    urlParse appBasePathConfig.appServiceURL = some ⟨"http", "", "app:3002", "/base", ""⟩ ∧
    serve appBasePathConfig (plainRequest "GET" "/api/images/abc-123/status") =
      .relayed Writer.fresh ⟨"http", "app:3002", "/base/api/images/abc-123/status", ""⟩ ∧
    "/base/api/images/abc-123/status"
      ≠ (plainRequest "GET" "/api/images/abc-123/status").path := by
  decide

/-- C2, amended: for every `APP_SERVICE_URL` that parses as a URL and every
request of an image route (`POST /api/images/upload`, `GET /api/images`,
`GET /api/images/<id>`, `GET /api/images/<id>/status`, `<id>` non-empty and
without a slash), the gateway relays the request to the scheme and host of the
app URL; the path the backend gets is the base path of that URL joined in
front of the inbound path, so it ends with the whole inbound path, `<id>`
included byte for byte, and it is the inbound path itself when the app URL has
no base path (empty or `/`). -/
theorem image_routes_forward (cfg : Config) (r : Request) (t : URL)
    (ht : urlParse cfg.appServiceURL = some t) (hr : isImageRequest r) :
    serve cfg r = .relayed (applyCors corsConfig Writer.fresh r).1 (rewriteRequestURL t r) ∧
    (rewriteRequestURL t r).scheme = t.scheme ∧ (rewriteRequestURL t r).host = t.host ∧
    (∃ pre, (rewriteRequestURL t r).path.data = pre ++ r.path.data) ∧
    (t.path = "" ∨ t.path = "/" → (rewriteRequestURL t r).path = r.path) := by
  obtain ⟨hdis, hslash⟩ := dispatch_image r hr
  have hpre : (crossOrigin r && r.method == "OPTIONS") = false := by
    rcases hr with ⟨hm, _⟩ | ⟨hm, _⟩ <;> rw [hm] <;> simp
  refine ⟨?_, rfl, rfl, rewrite_path_suffix t r, fun h => rewrite_path_same t r h hslash⟩
  unfold serve
  rw [hdis]
  exact chain_proxy_some _ t r ht hpre

/-- C2, amended, at the default configuration: the status of image `abc-123`
is relayed to `localhost:3002` with the path `/api/images/abc-123/status`. -/
theorem image_routes_forward_witness :
    serve defaultConfig (plainRequest "GET" "/api/images/abc-123/status") =
      .relayed Writer.fresh ⟨"http", "localhost:3002", "/api/images/abc-123/status", ""⟩ := by
  have h := image_routes_forward defaultConfig (plainRequest "GET" "/api/images/abc-123/status")
    ⟨"http", "", "localhost:3002", "", ""⟩ (by decide)
    (Or.inr ⟨rfl, Or.inr ⟨"abc-123", by decide, by decide, Or.inr (by decide)⟩⟩)
  rw [h.1]
  decide

/-- C3 as stated fails: `GET /health/` matches no route, and the gateway
answers it itself with a redirect (301); so it does `GET /api/images/`, and
`POST /api/auth/login/` with 307. -/
theorem unmatched_request_redirected :
    findRoute (plainRequest "GET" "/health/") = none ∧
    serve defaultConfig (plainRequest "GET" "/health/") = .redirect 301 ∧
    serve defaultConfig (plainRequest "GET" "/api/images/") = .redirect 301 ∧
    serve defaultConfig (plainRequest "POST" "/api/auth/login/") = .redirect 307 := by
  decide

/-- C3, amended: a request that matches no route is never answered by the
gateway with a 404 or a 405: what the gateway writes itself is the 204 of a
cross-origin preflight or the 500 of C5. When the router does not redirect a
trailing slash, the request is no cross-origin preflight and the app URL
parses, the request is relayed to the scheme and host of the app URL, with a
path that ends with the whole inbound path and is the inbound path itself
when the app URL has no base path and the inbound path starts with a slash. -/
theorem unmatched_requests_forward (cfg : Config) (r : Request) (hnone : findRoute r = none) :
    (∀ w, serve cfg r = .written w → w.status = some 204 ∨ w.status = some 500) ∧
    (trailingSlash r = false → (crossOrigin r && r.method == "OPTIONS") = false →
      ∀ t, urlParse cfg.appServiceURL = some t →
        serve cfg r = .relayed (applyCors corsConfig Writer.fresh r).1 (rewriteRequestURL t r) ∧
        (rewriteRequestURL t r).scheme = t.scheme ∧ (rewriteRequestURL t r).host = t.host ∧
        (∃ pre, (rewriteRequestURL t r).path.data = pre ++ r.path.data) ∧
        (t.path = "" ∨ t.path = "/" → hasPrefix r.path.data ['/'] = true →
          (rewriteRequestURL t r).path = r.path)) := by
  refine ⟨?_, ?_⟩
  · intro w hw
    unfold serve dispatch at hw
    rw [hnone] at hw
    simp only at hw
    split at hw
    · rename_i code hcode
      split at hcode <;> simp at hcode
    · simp at hw
    · cases hp : (crossOrigin r && r.method == "OPTIONS") with
      | true =>
        rw [chain_of_preflight _ r hp] at hw
        simp only [Reply.written.injEq] at hw
        rw [← hw]
        exact Or.inl (applyCors_preflight_status _ r hp)
      | false =>
        rw [chain_of_pass _ r hp] at hw
        unfold noRouteHandler at hw
        cases hu : urlParse cfg.appServiceURL with
        | none =>
          rw [hu] at hw
          simp only [finish, Reply.written.injEq] at hw
          rw [← hw]
          exact Or.inr rfl
        | some t => rw [hu] at hw; simp [finish] at hw
  · intro hts hp t ht
    refine ⟨?_, rfl, rfl, rewrite_path_suffix t r, fun h hs => rewrite_path_same t r h hs⟩
    have hdis : dispatch r = .noRoute := by
      unfold dispatch
      rw [hnone]
      simp [hts]
    unfold serve
    rw [hdis]
    simp only
    rw [chain_of_pass _ r hp]
    simp [noRouteHandler, ht, finish]

/-- C3, amended, at requests of the claim's list: `GET /some/frontend/page`,
`POST /health`, `GET /api/auth/login` and `DELETE /api/images/x` are relayed
to `localhost:3002` with their paths. -/
theorem unmatched_requests_forward_witness :
    serve defaultConfig (plainRequest "GET" "/some/frontend/page") =
      .relayed Writer.fresh ⟨"http", "localhost:3002", "/some/frontend/page", ""⟩ ∧
    (rewriteRequestURL ⟨"http", "", "localhost:3002", "", ""⟩
      (plainRequest "DELETE" "/api/images/x")).path = "/api/images/x" := by
  have h := (unmatched_requests_forward defaultConfig (plainRequest "GET" "/some/frontend/page")
    (by decide)).2 (by decide) (by decide) ⟨"http", "", "localhost:3002", "", ""⟩ (by decide)
  have h2 := (unmatched_requests_forward defaultConfig (plainRequest "DELETE" "/api/images/x")
    (by decide)).2 (by decide) (by decide) ⟨"http", "", "localhost:3002", "", ""⟩ (by decide)
  refine ⟨?_, h2.2.2.2.2 (Or.inl rfl) (by decide)⟩
  rw [h.1]
  decide

end Gateway
